import Mathlib

/-!
Verification of the Tutor-AI repository against its specification.

The repository ships a React/TypeScript client (modelled in the `Client`
namespace below, translated from the files under `client/src`) and a
FastAPI backend whose semantic generation cache is described by the
specification but whose code is not part of the available sources; the
cache core (key construction, match resolution, generate-and-persist,
single-flight discipline) is therefore modelled from the specification,
and every such definition is marked `Modelled from the spec:` in its
documentation string.
-/

namespace TutorAI

/-! ## Data model of the generation cache -/

/-- Modelled from the spec: the semantically relevant subset of a user's
request (spec section 3). The distribution is rendered with one decimal of
precision, so it is carried here as tenths, avoiding floating point. -/
structure GenerationRequest where
  scope : String
  count : Nat
  types : List String
  bloom : List String
  distE : Nat
  distM : Nat
  distH : Nat
deriving Repr, DecidableEq

/-- Modelled from the spec: the CacheHash is a deterministic digest of
`scope + "|" + signature`.  The cryptographic digest itself is external
code; since the spec demands that equal inputs give equal digests and that
collisions be treated as a correctness bug rather than tolerated, the
digest is modelled as an injective function of the digested data, namely
the pair of its two components. -/
structure CacheHash where
  scopePart : String
  sigPart : String
deriving Repr, DecidableEq

/-- Modelled from the spec: the persisted record of the cache
(spec section 3). -/
structure ArtifactEntry where
  id : Nat
  scope : String
  signature : String
  hash : CacheHash
  payload : String
  createdAt : Nat
  usageCount : Nat
  embeddingVector : Option (List Int)
deriving Repr, DecidableEq

/-- Modelled from the spec: the match kind reported by the sole entry
point `resolveOrGenerate` (spec section 6). -/
inductive CacheMatchType where
  | exact
  | similar
  | generated
deriving Repr, DecidableEq

/-- Modelled from the spec: the record returned by `resolveOrGenerate`
(spec section 6). -/
structure ResolveOut where
  id : Nat
  payload : String
  cached : Bool
  matchType : CacheMatchType
  similarity : ℚ
deriving Repr, DecidableEq

/-- Modelled from the spec: the error kinds the serving layer
distinguishes (spec section 7): not-found, quota-exceeded and generation
failure are distinct error kinds. -/
inductive CacheError where
  | notFound
  | quotaExceeded
  | generationFailed
deriving Repr, DecidableEq

/-! ## KeyBuilder -/

/-- Code-point lexicographic comparison of character lists, the order used
to canonicalize set-valued request fields. -/
def charListLe : List Char → List Char → Bool
  | [], _ => true
  | _ :: _, [] => false
  | a :: as, b :: bs =>
    if a.toNat < b.toNat then true
    else if b.toNat < a.toNat then false
    else charListLe as bs

theorem charListLe_cons (a b : Char) (as bs : List Char) :
    charListLe (a :: as) (b :: bs) =
      (if a.toNat < b.toNat then true
       else if b.toNat < a.toNat then false
       else charListLe as bs) := rfl

theorem char_toNat_inj {a b : Char} (h : a.toNat = b.toNat) : a = b := by
  exact_mod_cast Char.ofNat_toNat a ▸ Char.ofNat_toNat b ▸ congrArg Char.ofNat h

theorem charListLe_total : ∀ as bs : List Char,
    charListLe as bs = true ∨ charListLe bs as = true
  | [], _ => Or.inl rfl
  | _ :: _, [] => Or.inr rfl
  | a :: as, b :: bs => by
    rw [charListLe_cons, charListLe_cons]
    rcases Nat.lt_trichotomy a.toNat b.toNat with h | h | h
    · left; rw [if_pos h]
    · rcases charListLe_total as bs with ih | ih
      · left; rw [if_neg (by omega), if_neg (by omega)]; exact ih
      · right; rw [if_neg (by omega), if_neg (by omega)]; exact ih
    · right; rw [if_pos h]

theorem charListLe_trans : ∀ as bs cs : List Char,
    charListLe as bs = true → charListLe bs cs = true → charListLe as cs = true
  | [], _, _, _, _ => rfl
  | _ :: _, [], _, h1, _ => by simp [charListLe] at h1
  | _ :: _, _ :: _, [], _, h2 => by simp [charListLe] at h2
  | a :: as, b :: bs, c :: cs, h1, h2 => by
    rw [charListLe_cons] at h1 h2 ⊢
    split_ifs at h1 h2 ⊢ <;>
      first
        | rfl
        | omega
        | exact charListLe_trans as bs cs h1 h2

theorem charListLe_antisymm : ∀ as bs : List Char,
    charListLe as bs = true → charListLe bs as = true → as = bs
  | [], [], _, _ => rfl
  | [], _ :: _, _, h2 => by simp [charListLe] at h2
  | _ :: _, [], h1, _ => by simp [charListLe] at h1
  | a :: as, b :: bs, h1, h2 => by
    rw [charListLe_cons] at h1 h2
    split_ifs at h1 h2 <;> first
      | omega
      | exact congrArg₂ List.cons (char_toNat_inj (by omega))
          (charListLe_antisymm as bs h1 h2)

/-- The canonicalization order on strings: code-point lexicographic. -/
def strLe (a b : String) : Bool := charListLe a.data b.data

instance : IsTotal String (fun a b => strLe a b = true) :=
  ⟨fun a b => charListLe_total a.data b.data⟩

instance : IsTrans String (fun a b => strLe a b = true) :=
  ⟨fun a b c => charListLe_trans a.data b.data c.data⟩

instance : IsAntisymm String (fun a b => strLe a b = true) :=
  ⟨fun a b h1 h2 => by
    cases a; cases b
    exact congrArg String.mk (charListLe_antisymm _ _ h1 h2)⟩

/-- Sorting of set-valued fields before serialization (spec section 4.1). -/
def sortStrings (l : List String) : List String :=
  List.insertionSort (fun a b => strLe a b = true) l

/-- One-decimal fixed-precision rendering of a distribution value carried
as tenths (spec section 4.1: distribution values are rendered with fixed
precision). -/
def renderTenths (n : Nat) : String :=
  toString (n / 10) ++ "." ++ toString (n % 10)

namespace KeyBuilder

/-- Modelled from the spec: the canonical parameter signature
(spec sections 3 and 4.1, and the worked example of section 8): scope,
count, sorted type list, sorted Bloom list and the fixed-precision
difficulty distribution, concatenated with stable separators. -/
def buildSignature (r : GenerationRequest) : String :=
  r.scope
    ++ "|count:" ++ toString r.count
    ++ "|types:" ++ String.intercalate "," (sortStrings r.types)
    ++ "|bloom:" ++ String.intercalate "," (sortStrings r.bloom)
    ++ "|diff:E" ++ renderTenths r.distE
    ++ "_M" ++ renderTenths r.distM
    ++ "_H" ++ renderTenths r.distH

/-- Modelled from the spec: the deterministic digest of
`scope + "|" + signature` (spec section 4.1), with the digest modelled as
the injective pairing of its inputs. -/
def buildHash (r : GenerationRequest) : CacheHash :=
  CacheHash.mk r.scope (buildSignature r)

/-- Modelled from the spec: `build(request) -> (signature, hash)`
(spec section 4.1). Pure, no side effects. -/
def build (r : GenerationRequest) : String × CacheHash :=
  (buildSignature r, buildHash r)

end KeyBuilder

/-- Sorted insertion sort output is determined by the multiset of inputs:
permuted string lists sort to the same list. -/
theorem sortStrings_perm_eq {l₁ l₂ : List String} (h : l₁.Perm l₂) :
    sortStrings l₁ = sortStrings l₂ := by
  apply List.eq_of_perm_of_sorted
    (r := fun a b : String => strLe a b = true)
  · exact (List.perm_insertionSort _ l₁).trans
      (h.trans (List.perm_insertionSort _ l₂).symm)
  · exact List.sorted_insertionSort _ l₁
  · exact List.sorted_insertionSort _ l₂

/-! ## ArtifactStore -/

/-- Modelled from the spec: the store is a generic document collection of
ArtifactEntry; it is modelled as a list ordered by recency, newest first
(inserts prepend). -/
abbrev ArtifactStore : Type := List ArtifactEntry

/-- Modelled from the spec: `getByHash(hash) -> ArtifactEntry | None`,
a single point lookup keyed by hash (spec sections 4.2 and 4.6). -/
def getByHash (store : ArtifactStore) (h : CacheHash) : Option ArtifactEntry :=
  List.find? (fun e => e.hash == h) store

/-- Modelled from the spec: `listByScope(scope, limit)`, the up-to-limit
most recent entries sharing the scope (spec section 4.6). -/
def listByScope (store : ArtifactStore) (scope : String) (limit : Nat) :
    List ArtifactEntry :=
  (List.filter (fun e => e.scope == scope) store).take limit

/-- Modelled from the spec: `incrementUsage(id)`, the only mutation path
of a persisted entry (spec sections 3 and 4.6). -/
def incrementUsage (store : ArtifactStore) (id : Nat) : ArtifactStore :=
  List.map
    (fun e =>
      if e.id = id then
        ArtifactEntry.mk e.id e.scope e.signature e.hash e.payload
          e.createdAt (e.usageCount + 1) e.embeddingVector
      else e)
    store

/-! ## CandidateRetriever -/

/-- Modelled from the spec: `fetch(scope, limit)` (spec section 4.4).
When the optional vector-search collaborator supplies a shortlist, that
shortlist is used instead of the naive recency list; in both cases scope
equality is a hard filter applied before scoring, and at most `limit`
entries are returned. -/
def fetch (store : ArtifactStore) (vectorShortlist : Option (List ArtifactEntry))
    (scope : String) (limit : Nat) : List ArtifactEntry :=
  match vectorShortlist with
  | some shortlist => (List.filter (fun e => e.scope == scope) shortlist).take limit
  | none => listByScope store scope limit

/-! ## SimilarityScorer and match selection -/

/-- Modelled from the spec: the tunable similarity acceptance threshold
(spec section 4.3), documented as configuration. -/
def SIMILARITY_THRESHOLD : ℚ := 9 / 10

/-- Modelled from the spec: a candidate is an accepted similar match only
if its score is at least the threshold (spec section 4.3, boundary
inclusive on the accept side). -/
def clearsThreshold (score : ℚ) : Bool :=
  decide (SIMILARITY_THRESHOLD ≤ score)

/-- Modelled from the spec: the candidates that clear the acceptance
threshold for the incoming signature.  The blended similarity score
(token-set overlap with TF-IDF cosine, spec section 4.3) is an external
real-valued computation; it enters the model as the function `f` from the
incoming and candidate signatures to a rational score. -/
def acceptedCandidates (f : String → String → ℚ) (sig : String)
    (cands : List ArtifactEntry) : List ArtifactEntry :=
  List.filter (fun e => clearsThreshold (f sig e.signature)) cands

/-- Modelled from the spec: the tie-break order of section 4.3 — entry `a`
beats entry `b` when its score is strictly higher, or the scores tie and
`a` was created more recently. -/
def beats (f : String → String → ℚ) (sig : String) (a b : ArtifactEntry) : Bool :=
  decide (f sig b.signature < f sig a.signature)
    || (decide (f sig a.signature = f sig b.signature)
        && decide (b.createdAt < a.createdAt))

/-- Modelled from the spec: fold step keeping the better of a candidate
and the best seen so far under the tie-break order. -/
def chooseBetter (f : String → String → ℚ) (sig : String) (e : ArtifactEntry) :
    Option ArtifactEntry → Option ArtifactEntry
  | none => some e
  | some b => if beats f sig e b then some e else some b

/-- Modelled from the spec: choose the best entry of a candidate list
under the tie-break order (highest score, then most recent). -/
def pickBest (f : String → String → ℚ) (sig : String)
    (l : List ArtifactEntry) : Option ArtifactEntry :=
  List.foldr (chooseBetter f sig) none l

/-- Modelled from the spec: the similarity-resolution step — filter the
candidates by the inclusive threshold, then choose the best accepted one
under the tie-break order (spec section 4.3). -/
def selectSimilar (f : String → String → ℚ) (sig : String)
    (cands : List ArtifactEntry) : Option ArtifactEntry :=
  pickBest f sig (acceptedCandidates f sig cands)

/-! ## GenerationOrchestrator (sequential resolution path) -/

/-- Modelled from the spec: the configuration of a resolution run — the
externally computed blended score, the optional vector shortlist and the
candidate limit. -/
structure ResolveConfig where
  score : String → String → ℚ
  vectorShortlist : Option (List ArtifactEntry)
  candidateLimit : Nat

/-- Modelled from the spec: the outcome of one `resolveOrGenerate` run —
its response, the store it leaves behind, and whether the per-key
generation lock is still held on return (spec sections 4.5 and 6). -/
structure OrchestratorOutcome where
  result : Except CacheError ResolveOut
  store : ArtifactStore
  lockHeld : Bool

/-- Modelled from the spec: the sole entry point
`resolveOrGenerate(request)` on its sequential path (spec sections 4.5 and
6): exact match by hash, else similarity match over same-scope candidates,
else acquire the per-key lock, call the external Generator (whose outcome
is the `genResult` argument), persist on success, and release the lock on
both the success and the failure exit; on failure nothing is persisted and
a generation error is surfaced.  Reuse paths increment the reused entry's
usageCount. -/
def resolveOrGenerate (cfg : ResolveConfig) (store : ArtifactStore)
    (req : GenerationRequest) (genResult : Except Unit String)
    (now : Nat) (newId : Nat) : OrchestratorOutcome :=
  let sig := KeyBuilder.buildSignature req
  let h := KeyBuilder.buildHash req
  match getByHash store h with
  | some e =>
    OrchestratorOutcome.mk
      (Except.ok (ResolveOut.mk e.id e.payload true CacheMatchType.exact 1))
      (incrementUsage store e.id) false
  | none =>
    let cands := fetch store cfg.vectorShortlist req.scope cfg.candidateLimit
    match selectSimilar cfg.score sig cands with
    | some e =>
      OrchestratorOutcome.mk
        (Except.ok (ResolveOut.mk e.id e.payload true CacheMatchType.similar
          (cfg.score sig e.signature)))
        (incrementUsage store e.id) false
    | none =>
      match genResult with
      | Except.error _ =>
        OrchestratorOutcome.mk (Except.error CacheError.generationFailed)
          store false
      | Except.ok payload =>
        let entry := ArtifactEntry.mk newId req.scope sig h payload now 0 none
        OrchestratorOutcome.mk
          (Except.ok (ResolveOut.mk newId payload false CacheMatchType.generated 0))
          (entry :: store) false

/-! ## GenerationOrchestrator: concurrent single-flight model

The spec's state machine (section 4.5) is modelled as an interleaving
transition system over N requests that share one cache hash and start
from a store with no entry for that hash.  The store is projected to that
single hash (`entry`), the per-key lock to `lock`, and `calls` counts
Generator invocations. -/

/-- Modelled from the spec: the per-request control state of the
orchestrator's state machine (spec section 4.5). -/
inductive ReqPC where
  | checkExact
  | checkSimilar
  | acquireLock
  | awaitLock
  | generating
  | doneReuse (payload : String)
  | doneGenerated (payload : String)
deriving Repr, DecidableEq

/-- A request is finished when it has produced a response. -/
def ReqPC.isDone : ReqPC → Bool
  | .doneReuse _ => true
  | .doneGenerated _ => true
  | _ => false

/-- Modelled from the spec: the shared system state for one cache hash —
each request's control point, the holder of the per-key lock, the
persisted artifact for the hash, and the number of Generator calls made. -/
structure FlightState (n : Nat) where
  pc : Fin n → ReqPC
  lock : Option (Fin n)
  entry : Option String
  calls : Nat

/-- Modelled from the spec: one atomic step of request `i` in the state
machine of section 4.5.  CHECK_EXACT and CHECK_SIMILAR reuse the persisted
entry when present (an identical-signature candidate scores 1.0, above the
threshold); ACQUIRE_LOCK is an atomic create-if-absent that leads straight
to GENERATE on success and to AWAIT_OR_RECHECK when held by another;
AWAIT_OR_RECHECK returns to CHECK_EXACT once the lock is free; GENERATE
persists the payload, releases the lock and completes. -/
def flightStep (p : String) {n : Nat} (s : FlightState n) (i : Fin n) :
    FlightState n :=
  match s.pc i with
  | .checkExact =>
    match s.entry with
    | some q =>
      FlightState.mk (Function.update s.pc i (ReqPC.doneReuse q)) s.lock s.entry s.calls
    | none =>
      FlightState.mk (Function.update s.pc i ReqPC.checkSimilar) s.lock s.entry s.calls
  | .checkSimilar =>
    match s.entry with
    | some q =>
      FlightState.mk (Function.update s.pc i (ReqPC.doneReuse q)) s.lock s.entry s.calls
    | none =>
      FlightState.mk (Function.update s.pc i ReqPC.acquireLock) s.lock s.entry s.calls
  | .acquireLock =>
    match s.lock with
    | none =>
      FlightState.mk (Function.update s.pc i ReqPC.generating) (some i) s.entry (s.calls + 1)
    | some _ =>
      FlightState.mk (Function.update s.pc i ReqPC.awaitLock) s.lock s.entry s.calls
  | .awaitLock =>
    match s.lock with
    | none =>
      FlightState.mk (Function.update s.pc i ReqPC.checkExact) s.lock s.entry s.calls
    | some _ => s
  | .generating =>
    FlightState.mk (Function.update s.pc i (ReqPC.doneGenerated p)) none (some p) s.calls
  | .doneReuse _ => s
  | .doneGenerated _ => s

/-- Modelled from the spec: N concurrent requests with the same hash and
no existing cache entry — every request starts at CHECK_EXACT, the lock is
free, the store has no entry, no Generator call has been made. -/
def flightInit (n : Nat) : FlightState n :=
  FlightState.mk (fun _ => ReqPC.checkExact) none none 0

/-- Run the system under a schedule: at each point the scheduled request
performs one atomic step. -/
def flightRun (p : String) {n : Nat} (s : FlightState n) :
    List (Fin n) → FlightState n
  | [] => s
  | i :: sched => flightRun p (flightStep p s i) sched

/-- Spec section 3: an ArtifactEntry is read-mostly after creation — the
later version keeps every field of the original, except that usageCount
may have been incremented on reuse. -/
def preservesEntry (e e2 : ArtifactEntry) : Prop :=
  e2.id = e.id ∧ e2.scope = e.scope ∧ e2.signature = e.signature
    ∧ e2.hash = e.hash ∧ e2.payload = e.payload ∧ e2.createdAt = e.createdAt
    ∧ e2.embeddingVector = e.embeddingVector
    ∧ (e2.usageCount = e.usageCount ∨ e2.usageCount = e.usageCount + 1)

/-- The inductive invariant of the single-flight model. -/
def FlightInv (p : String) {n : Nat} (s : FlightState n) : Prop :=
  (∀ i, s.pc i = ReqPC.generating → s.lock = some i)
  ∧ (∀ q, s.entry = some q → q = p)
  ∧ (∀ i q, s.pc i = ReqPC.doneReuse q → q = p)
  ∧ (∀ i q, s.pc i = ReqPC.doneGenerated q → q = p)
  ∧ (∀ i, (s.pc i).isDone = true → s.entry.isSome = true)
  ∧ (s.entry.isSome = true → 1 ≤ s.calls)
  ∧ (∀ i, s.pc i = ReqPC.generating → 1 ≤ s.calls)

theorem flightInv_init (p : String) (n : Nat) : FlightInv p (flightInit n) := by
  refine ⟨?_, ?_, ?_, ?_, ?_, ?_, ?_⟩ <;> intro i <;> simp [flightInit, ReqPC.isDone] at *

theorem flightInv_update_pc {p : String} {n : Nat} {s : FlightState n} {i : Fin n}
    (h : FlightInv p s) (c : ReqPC) (hnd : c.isDone = false)
    (hng : c ≠ ReqPC.generating) :
    FlightInv p (FlightState.mk (Function.update s.pc i c) s.lock s.entry s.calls) := by
  obtain ⟨h1, h2, h3, h4, h5, h6, h7⟩ := h
  unfold FlightInv
  dsimp only
  refine ⟨?_, h2, ?_, ?_, ?_, h6, ?_⟩
  · intro j hj
    rcases eq_or_ne j i with rfl | hji
    · rw [Function.update_same] at hj; exact absurd hj hng
    · rw [Function.update_noteq hji] at hj; exact h1 j hj
  · intro j q hj
    rcases eq_or_ne j i with rfl | hji
    · rw [Function.update_same] at hj; subst hj; simp [ReqPC.isDone] at hnd
    · rw [Function.update_noteq hji] at hj; exact h3 j q hj
  · intro j q hj
    rcases eq_or_ne j i with rfl | hji
    · rw [Function.update_same] at hj; subst hj; simp [ReqPC.isDone] at hnd
    · rw [Function.update_noteq hji] at hj; exact h4 j q hj
  · intro j hj
    rcases eq_or_ne j i with rfl | hji
    · rw [Function.update_same] at hj; rw [hnd] at hj; exact absurd hj (by simp)
    · rw [Function.update_noteq hji] at hj; exact h5 j hj
  · intro j hj
    rcases eq_or_ne j i with rfl | hji
    · rw [Function.update_same] at hj; exact absurd hj hng
    · rw [Function.update_noteq hji] at hj; exact h7 j hj

theorem flightInv_reuse {p : String} {n : Nat} {s : FlightState n} {i : Fin n}
    {q : String} (h : FlightInv p s) (he : s.entry = some q) :
    FlightInv p (FlightState.mk (Function.update s.pc i (ReqPC.doneReuse q))
      s.lock s.entry s.calls) := by
  obtain ⟨h1, h2, h3, h4, h5, h6, h7⟩ := h
  unfold FlightInv
  dsimp only
  refine ⟨?_, h2, ?_, ?_, ?_, h6, ?_⟩
  · intro j hj
    rcases eq_or_ne j i with rfl | hji
    · rw [Function.update_same] at hj; exact absurd hj (by simp)
    · rw [Function.update_noteq hji] at hj; exact h1 j hj
  · intro j q' hj
    rcases eq_or_ne j i with rfl | hji
    · rw [Function.update_same] at hj
      injection hj with hv
      subst hv
      exact h2 q he
    · rw [Function.update_noteq hji] at hj; exact h3 j q' hj
  · intro j q' hj
    rcases eq_or_ne j i with rfl | hji
    · rw [Function.update_same] at hj; exact absurd hj (by simp)
    · rw [Function.update_noteq hji] at hj; exact h4 j q' hj
  · intro j hj
    rcases eq_or_ne j i with rfl | hji
    · rw [he]; rfl
    · rw [Function.update_noteq hji] at hj; exact h5 j hj
  · intro j hj
    rcases eq_or_ne j i with rfl | hji
    · rw [Function.update_same] at hj; exact absurd hj (by simp)
    · rw [Function.update_noteq hji] at hj; exact h7 j hj

theorem flightInv_step (p : String) {n : Nat} (s : FlightState n) (i : Fin n)
    (h : FlightInv p s) : FlightInv p (flightStep p s i) := by
  cases hpc : s.pc i with
  | checkExact =>
    cases hentry : s.entry with
    | some q =>
      have hstep : flightStep p s i
          = FlightState.mk (Function.update s.pc i (ReqPC.doneReuse q))
              s.lock s.entry s.calls := by
        unfold flightStep; rw [hpc, hentry]
      rw [hstep]; exact flightInv_reuse h hentry
    | none =>
      have hstep : flightStep p s i
          = FlightState.mk (Function.update s.pc i ReqPC.checkSimilar)
              s.lock s.entry s.calls := by
        unfold flightStep; rw [hpc, hentry]
      rw [hstep]; exact flightInv_update_pc h _ rfl (by simp)
  | checkSimilar =>
    cases hentry : s.entry with
    | some q =>
      have hstep : flightStep p s i
          = FlightState.mk (Function.update s.pc i (ReqPC.doneReuse q))
              s.lock s.entry s.calls := by
        unfold flightStep; rw [hpc, hentry]
      rw [hstep]; exact flightInv_reuse h hentry
    | none =>
      have hstep : flightStep p s i
          = FlightState.mk (Function.update s.pc i ReqPC.acquireLock)
              s.lock s.entry s.calls := by
        unfold flightStep; rw [hpc, hentry]
      rw [hstep]; exact flightInv_update_pc h _ rfl (by simp)
  | acquireLock =>
    cases hlock : s.lock with
    | none =>
      obtain ⟨h1, h2, h3, h4, h5, h6, h7⟩ := h
      have hstep : flightStep p s i
          = FlightState.mk (Function.update s.pc i ReqPC.generating)
              (some i) s.entry (s.calls + 1) := by
        unfold flightStep; rw [hpc, hlock]
      rw [hstep]
      unfold FlightInv
      dsimp only
      refine ⟨?_, h2, ?_, ?_, ?_, ?_, ?_⟩
      · intro j hj
        rcases eq_or_ne j i with rfl | hji
        · rfl
        · rw [Function.update_noteq hji] at hj
          have := h1 j hj
          rw [hlock] at this
          exact absurd this (by simp)
      · intro j q hj
        rcases eq_or_ne j i with rfl | hji
        · rw [Function.update_same] at hj; exact absurd hj (by simp)
        · rw [Function.update_noteq hji] at hj; exact h3 j q hj
      · intro j q hj
        rcases eq_or_ne j i with rfl | hji
        · rw [Function.update_same] at hj; exact absurd hj (by simp)
        · rw [Function.update_noteq hji] at hj; exact h4 j q hj
      · intro j hj
        rcases eq_or_ne j i with rfl | hji
        · rw [Function.update_same] at hj; simp [ReqPC.isDone] at hj
        · rw [Function.update_noteq hji] at hj; exact h5 j hj
      · intro _; omega
      · intro j _; omega
    | some k =>
      have hstep : flightStep p s i
          = FlightState.mk (Function.update s.pc i ReqPC.awaitLock)
              s.lock s.entry s.calls := by
        unfold flightStep; rw [hpc, hlock]
      rw [hstep]; exact flightInv_update_pc h _ rfl (by simp)
  | awaitLock =>
    cases hlock : s.lock with
    | none =>
      have hstep : flightStep p s i
          = FlightState.mk (Function.update s.pc i ReqPC.checkExact)
              s.lock s.entry s.calls := by
        unfold flightStep; rw [hpc, hlock]
      rw [hstep]; exact flightInv_update_pc h _ rfl (by simp)
    | some k =>
      have hstep : flightStep p s i = s := by
        unfold flightStep; rw [hpc, hlock]
      rw [hstep]; exact h
  | generating =>
    obtain ⟨h1, h2, h3, h4, h5, h6, h7⟩ := h
    have hstep : flightStep p s i
        = FlightState.mk (Function.update s.pc i (ReqPC.doneGenerated p))
            none (some p) s.calls := by
      unfold flightStep; rw [hpc]
    rw [hstep]
    have hci : 1 ≤ s.calls := h7 i hpc
    unfold FlightInv
    dsimp only
    refine ⟨?_, ?_, ?_, ?_, ?_, ?_, ?_⟩
    · intro j hj
      rcases eq_or_ne j i with rfl | hji
      · rw [Function.update_same] at hj; exact absurd hj (by simp)
      · rw [Function.update_noteq hji] at hj
        have hj' := h1 j hj
        have hi' := h1 i hpc
        rw [hi'] at hj'
        injection hj' with hv
        exact absurd hv.symm hji
    · intro q hq; injection hq with hv; exact hv.symm
    · intro j q hj
      rcases eq_or_ne j i with rfl | hji
      · rw [Function.update_same] at hj; exact absurd hj (by simp)
      · rw [Function.update_noteq hji] at hj; exact h3 j q hj
    · intro j q hj
      rcases eq_or_ne j i with rfl | hji
      · rw [Function.update_same] at hj; injection hj with hv; exact hv.symm
      · rw [Function.update_noteq hji] at hj; exact h4 j q hj
    · intro j _; rfl
    · intro _; exact hci
    · intro j hj
      rcases eq_or_ne j i with rfl | hji
      · rw [Function.update_same] at hj; exact absurd hj (by simp)
      · rw [Function.update_noteq hji] at hj; exact h7 j hj
  | doneReuse q =>
    have hstep : flightStep p s i = s := by
      unfold flightStep; rw [hpc]
    rw [hstep]; exact h
  | doneGenerated q =>
    have hstep : flightStep p s i = s := by
      unfold flightStep; rw [hpc]
    rw [hstep]; exact h

theorem flightInv_run (p : String) {n : Nat} :
    ∀ (sched : List (Fin n)) (s : FlightState n),
      FlightInv p s → FlightInv p (flightRun p s sched)
  | [], _, h => h
  | i :: sched, s, h =>
    flightInv_run p sched (flightStep p s i) (flightInv_step p s i h)

/-! ## Client code (translated from client/src) -/

namespace Client

/-- The request payload of POST /questions/generate; all fields except
contentId are optional and omitted fields stay unset.  Translated from
client/src/api/client.ts, type QuestionsRequest.  The difficulty
proportions of difficultyDistribution are carried as rationals. -/
structure QuestionsRequest where
  contentId : String
  questionCount : Option Nat
  questionTypes : Option (List String)
  difficultyDistribution : Option (List (String × ℚ))
  bloomLevels : Option (List String)
deriving Repr, DecidableEq

/-- The request the QuestionsPage onGenerate handler passes to
generateQuestions, as a function of the page state; `none` when the
handler returns early because contentId is the empty string (the only
falsy string value).  Translated from client/src/pages/Questions.tsx,
onGenerate. -/
def onGenerateRequest (contentId : String) (count : Nat) (qtype : String) :
    Option QuestionsRequest :=
  if contentId = "" then none
  else some (QuestionsRequest.mk contentId (some count) (some [qtype]) none none)

/-- Translated from client/src/utils/pii.ts, luhnCheck: the doubling step
applied to every second digit counted by the parity of the check digit. -/
def luhnDouble (d : Nat) : Nat :=
  if d * 2 > 9 then d * 2 - 9 else d * 2

/-- Translated from client/src/utils/pii.ts, luhnCheck: extract the digit
characters of the candidate string, require 13 to 19 of them, double every
second payload digit according to the parity derived from the length, and
check the checksum against the final digit modulo 10. -/
def luhnCheck (number : String) : Bool :=
  let digits := (number.data.filter (fun c => c.isDigit)).map (fun c => c.toNat - 48)
  if digits.length < 13 ∨ digits.length > 19 then false
  else
    let parity := (digits.length - 2) % 2
    let body := digits.take (digits.length - 1)
    let checksum :=
      (body.enum.map
        (fun pair => if pair.1 % 2 = parity then luhnDouble pair.2 else pair.2)).sum
    decide ((checksum + digits.getLastD 0) % 10 = 0)

/-- The four hard-coded regular expressions of client/src/utils/pii.ts and
the global credit-card sequence match run on the JavaScript RegExp engine,
which is external to this translation; their outcomes are abstracted as
functions of the text. -/
structure PiiPrimitives where
  emailTest : String → Bool
  phoneTest : String → Bool
  ssnTest : String → Bool
  ibanTest : String → Bool
  ccMatches : String → List String

/-- Translated from client/src/utils/pii.ts: Array.from of a Set built
from a list — insertion-order deduplication keeping first occurrences. -/
def jsSetDedup (l : List String) : List String :=
  List.foldl (fun acc x => if x ∈ acc then acc else acc ++ [x]) [] l

/-- Translated from client/src/utils/pii.ts, detectPII.  A missing
(undefined) text is `none`; the empty string is the only falsy string, so
both return an empty issue list before any pattern runs. -/
def detectPII (prim : PiiPrimitives) (text : Option String) : List String :=
  match text with
  | none => []
  | some t =>
    if t = "" then []
    else
      jsSetDedup
        ((if prim.emailTest t then ["email"] else [])
          ++ (if prim.phoneTest t then ["phone"] else [])
          ++ (if prim.ssnTest t then ["ssn"] else [])
          ++ (if prim.ibanTest t then ["iban"] else [])
          ++ (if (prim.ccMatches t).any luhnCheck then ["credit card"] else []))

/-- Translated from client/src/utils/pii.ts, hasPII: true exactly when
detectPII reports at least one issue. -/
def hasPII (prim : PiiPrimitives) (text : Option String) : Bool :=
  decide (0 < (detectPII prim text).length)

end Client

/-! ## Concrete fixtures used by boundary cases and witnesses -/

/-- A concrete candidate entry used by boundary and witness statements. -/
def sampleEntry : ArtifactEntry :=
  ArtifactEntry.mk 1 "content123" "candidate-signature"
    (CacheHash.mk "content123" "candidate-signature") "sample-payload" 4 0 none

/-- A concrete resolution configuration used by witness statements: a
constant zero score, no vector shortlist, a candidate limit of 10. -/
def sampleConfig : ResolveConfig :=
  ResolveConfig.mk (fun _ _ => 0) none 10

/-- The example request of spec section 8. -/
def exampleRequest : GenerationRequest :=
  GenerationRequest.mk "content123" 5
    ["Multiple Choice", "Short Answer"] ["Apply", "Remember"] 3 5 2

/-- The example request of spec section 8 with the Bloom levels given in
the other order. -/
def exampleRequestReordered : GenerationRequest :=
  GenerationRequest.mk "content123" 5
    ["Multiple Choice", "Short Answer"] ["Remember", "Apply"] 3 5 2

/-- A concrete store entry whose hash is the built hash of the example
request, as the persist path would create it. -/
def exampleEntry : ArtifactEntry :=
  ArtifactEntry.mk 2 "content123" (KeyBuilder.buildSignature exampleRequest)
    (KeyBuilder.buildHash exampleRequest) "example-payload" 3 0 none

/-- The worked example of spec section 8 produces exactly the signature
given there. -/
theorem buildSignature_example :
    KeyBuilder.buildSignature
      (GenerationRequest.mk "content123" 5
        ["Multiple Choice", "Short Answer"] ["Apply", "Remember"] 3 5 2)
    = "content123|count:5|types:Multiple Choice,Short Answer|bloom:Apply,Remember|diff:E0.3_M0.5_H0.2" := by
  decide

/-! ## Selection lemmas -/

theorem pickBest_cons (f : String → String → ℚ) (sig : String)
    (e : ArtifactEntry) (rest : List ArtifactEntry) :
    pickBest f sig (e :: rest) = chooseBetter f sig e (pickBest f sig rest) := rfl

theorem pickBest_eq_none {f : String → String → ℚ} {sig : String} :
    ∀ {l : List ArtifactEntry}, pickBest f sig l = none → l = []
  | [], _ => rfl
  | e :: rest, h => by
    rw [pickBest_cons] at h
    cases hrest : pickBest f sig rest with
    | none => rw [hrest] at h; simp [chooseBetter] at h
    | some b =>
      rw [hrest] at h
      simp only [chooseBetter] at h
      by_cases hb : beats f sig e b = true
      · rw [if_pos hb] at h; exact absurd h (by simp)
      · rw [if_neg hb] at h; exact absurd h (by simp)

theorem pickBest_mem {f : String → String → ℚ} {sig : String} :
    ∀ {l : List ArtifactEntry} {c : ArtifactEntry},
      pickBest f sig l = some c → c ∈ l
  | [], c, h => by simp [pickBest, List.foldr_nil] at h
  | e :: rest, c, h => by
    rw [pickBest_cons] at h
    cases hrest : pickBest f sig rest with
    | none =>
      rw [hrest] at h
      simp only [chooseBetter] at h
      injection h with hv
      subst hv
      exact List.mem_cons_self e rest
    | some b =>
      rw [hrest] at h
      simp only [chooseBetter] at h
      by_cases hb : beats f sig e b = true
      · rw [if_pos hb] at h
        injection h with hv
        subst hv
        exact List.mem_cons_self e rest
      · rw [if_neg hb] at h
        injection h with hv
        subst hv
        exact List.mem_cons_of_mem e (pickBest_mem hrest)

/-- The beats relation as a proposition. -/
theorem beats_eq_true_iff (f : String → String → ℚ) (sig : String)
    (a b : ArtifactEntry) :
    beats f sig a b = true
      ↔ (f sig b.signature < f sig a.signature
          ∨ (f sig a.signature = f sig b.signature ∧ b.createdAt < a.createdAt)) := by
  simp [beats, Bool.or_eq_true, Bool.and_eq_true, decide_eq_true_eq]

theorem pickBest_dominates {f : String → String → ℚ} {sig : String} :
    ∀ {l : List ArtifactEntry} {c : ArtifactEntry},
      pickBest f sig l = some c → ∀ d ∈ l,
        f sig d.signature ≤ f sig c.signature
          ∧ (f sig c.signature ≤ f sig d.signature → d.createdAt ≤ c.createdAt)
  | [], c, h => by simp [pickBest, List.foldr_nil] at h
  | e :: rest, c, h => by
    rw [pickBest_cons] at h
    cases hrest : pickBest f sig rest with
    | none =>
      rw [hrest] at h
      simp only [chooseBetter] at h
      injection h with hv
      subst hv
      have hre : rest = [] := pickBest_eq_none hrest
      subst hre
      intro d hd
      rcases List.mem_singleton.mp hd with rfl
      exact ⟨le_refl _, fun _ => le_refl _⟩
    | some b =>
      rw [hrest] at h
      simp only [chooseBetter] at h
      have ihb := fun d hd => pickBest_dominates hrest d hd
      by_cases hb : beats f sig e b = true
      · rw [if_pos hb] at h
        injection h with hv
        subst hv
        have hbeat := (beats_eq_true_iff f sig e b).mp hb
        intro d hd
        rcases List.mem_cons.mp hd with rfl | hdr
        · exact ⟨le_refl _, fun _ => le_refl _⟩
        · obtain ⟨hle, hca⟩ := ihb d hdr
          rcases hbeat with hlt | ⟨heq, hcb⟩
          · refine ⟨le_trans hle (le_of_lt hlt), fun hge => ?_⟩
            exact absurd (lt_of_le_of_lt (le_trans hge hle) hlt) (lt_irrefl _)
          · refine ⟨by rw [heq]; exact hle, fun hge => ?_⟩
            have hd2 : d.createdAt ≤ b.createdAt := hca (by rw [← heq]; exact hge)
            omega
      · rw [if_neg hb] at h
        injection h with hv
        subst hv
        have hnb := hb
        rw [beats_eq_true_iff] at hnb
        push_neg at hnb
        obtain ⟨hnlt, hne⟩ := hnb
        intro d hd
        rcases List.mem_cons.mp hd with rfl | hdr
        · exact ⟨hnlt, fun hge => hne (le_antisymm hnlt hge)⟩
        · exact ihb d hdr

theorem mem_acceptedCandidates {f : String → String → ℚ} {sig : String}
    {cands : List ArtifactEntry} {e : ArtifactEntry} :
    e ∈ acceptedCandidates f sig cands
      ↔ e ∈ cands ∧ SIMILARITY_THRESHOLD ≤ f sig e.signature := by
  simp [acceptedCandidates, List.mem_filter, clearsThreshold, decide_eq_true_eq]

theorem selectSimilar_mem_accepted {f : String → String → ℚ} {sig : String}
    {cands : List ArtifactEntry} {c : ArtifactEntry}
    (h : selectSimilar f sig cands = some c) :
    c ∈ acceptedCandidates f sig cands :=
  pickBest_mem h

/-- Evaluation of selection on a single candidate that clears the
threshold. -/
theorem selectSimilar_singleton_pos (f : String → String → ℚ) (sig : String)
    (e : ArtifactEntry) (h : clearsThreshold (f sig e.signature) = true) :
    selectSimilar f sig [e] = some e := by
  unfold selectSimilar acceptedCandidates
  rw [List.filter_cons]
  simp only [h, if_pos]
  rfl

/-- Evaluation of selection on a single candidate that misses the
threshold. -/
theorem selectSimilar_singleton_neg (f : String → String → ℚ) (sig : String)
    (e : ArtifactEntry) (h : clearsThreshold (f sig e.signature) = false) :
    selectSimilar f sig [e] = none := by
  unfold selectSimilar acceptedCandidates
  rw [List.filter_cons]
  simp only [h]
  rfl

/-! ## Store and retrieval lemmas -/

theorem mem_scope_filter_take {l : List ArtifactEntry} {scope : String}
    {limit : Nat} {e : ArtifactEntry}
    (h : e ∈ (List.filter (fun e => e.scope == scope) l).take limit) :
    e.scope = scope := by
  have h2 := List.mem_filter.mp (List.take_subset _ _ h)
  simpa using h2.2

theorem fetch_scope {store : ArtifactStore}
    {shortlist : Option (List ArtifactEntry)} {scope : String} {limit : Nat}
    {e : ArtifactEntry} (h : e ∈ fetch store shortlist scope limit) :
    e.scope = scope := by
  cases shortlist with
  | none => exact mem_scope_filter_take h
  | some sl => exact mem_scope_filter_take h

theorem getByHash_mem {store : ArtifactStore} {h : CacheHash}
    {e : ArtifactEntry} (hf : getByHash store h = some e) : e ∈ store :=
  List.mem_of_find?_eq_some hf

theorem getByHash_hash {store : ArtifactStore} {h : CacheHash}
    {e : ArtifactEntry} (hf : getByHash store h = some e) : e.hash = h := by
  have := List.find?_some hf
  simpa using this

theorem getByHash_cons_self {store : ArtifactStore} {e : ArtifactEntry}
    {h : CacheHash} (he : e.hash = h) :
    getByHash (e :: store) h = some e := by
  unfold getByHash
  exact List.find?_cons_of_pos _ (by simp [he])

theorem incrementUsage_frame (store : ArtifactStore) (id : Nat) :
    ∀ e ∈ store, ∃ e2 ∈ incrementUsage store id, preservesEntry e e2 := by
  intro e he
  unfold incrementUsage
  refine ⟨_, List.mem_map_of_mem _ he, ?_⟩
  by_cases hid : e.id = id
  · rw [if_pos hid]
    exact ⟨rfl, rfl, rfl, rfl, rfl, rfl, rfl, Or.inr rfl⟩
  · rw [if_neg hid]
    exact ⟨rfl, rfl, rfl, rfl, rfl, rfl, rfl, Or.inl rfl⟩

/-! ## Orchestrator path lemmas -/

theorem resolveOrGenerate_exact (cfg : ResolveConfig) (store : ArtifactStore)
    (req : GenerationRequest) (gen : Except Unit String) (now newId : Nat)
    (e : ArtifactEntry)
    (hx : getByHash store (KeyBuilder.buildHash req) = some e) :
    resolveOrGenerate cfg store req gen now newId
      = OrchestratorOutcome.mk
          (Except.ok (ResolveOut.mk e.id e.payload true CacheMatchType.exact 1))
          (incrementUsage store e.id) false := by
  simp only [resolveOrGenerate, hx]

theorem resolveOrGenerate_similar (cfg : ResolveConfig) (store : ArtifactStore)
    (req : GenerationRequest) (gen : Except Unit String) (now newId : Nat)
    (e : ArtifactEntry)
    (hx : getByHash store (KeyBuilder.buildHash req) = none)
    (hs : selectSimilar cfg.score (KeyBuilder.buildSignature req)
        (fetch store cfg.vectorShortlist req.scope cfg.candidateLimit) = some e) :
    resolveOrGenerate cfg store req gen now newId
      = OrchestratorOutcome.mk
          (Except.ok (ResolveOut.mk e.id e.payload true CacheMatchType.similar
            (cfg.score (KeyBuilder.buildSignature req) e.signature)))
          (incrementUsage store e.id) false := by
  simp only [resolveOrGenerate, hx, hs]

theorem resolveOrGenerate_missFail (cfg : ResolveConfig) (store : ArtifactStore)
    (req : GenerationRequest) (now newId : Nat)
    (hx : getByHash store (KeyBuilder.buildHash req) = none)
    (hs : selectSimilar cfg.score (KeyBuilder.buildSignature req)
        (fetch store cfg.vectorShortlist req.scope cfg.candidateLimit) = none) :
    resolveOrGenerate cfg store req (Except.error ()) now newId
      = OrchestratorOutcome.mk (Except.error CacheError.generationFailed)
          store false := by
  simp only [resolveOrGenerate, hx, hs]

theorem resolveOrGenerate_missOk (cfg : ResolveConfig) (store : ArtifactStore)
    (req : GenerationRequest) (p : String) (now newId : Nat)
    (hx : getByHash store (KeyBuilder.buildHash req) = none)
    (hs : selectSimilar cfg.score (KeyBuilder.buildSignature req)
        (fetch store cfg.vectorShortlist req.scope cfg.candidateLimit) = none) :
    resolveOrGenerate cfg store req (Except.ok p) now newId
      = OrchestratorOutcome.mk
          (Except.ok (ResolveOut.mk newId p false CacheMatchType.generated 0))
          (ArtifactEntry.mk newId req.scope (KeyBuilder.buildSignature req)
            (KeyBuilder.buildHash req) p now 0 none :: store) false := by
  simp only [resolveOrGenerate, hx, hs]

/-! ## Client lemmas -/

theorem jsSetDedupAux_nodup : ∀ (l acc : List String), acc.Nodup →
    (List.foldl (fun acc x => if x ∈ acc then acc else acc ++ [x]) acc l).Nodup
  | [], _, h => h
  | x :: l, acc, h => by
    rw [List.foldl_cons]
    by_cases hx : x ∈ acc
    · rw [if_pos hx]
      exact jsSetDedupAux_nodup l acc h
    · rw [if_neg hx]
      exact jsSetDedupAux_nodup l (acc ++ [x])
        (by simp [List.nodup_append, h, hx])

theorem jsSetDedup_nodup (l : List String) : (Client.jsSetDedup l).Nodup :=
  jsSetDedupAux_nodup l [] List.nodup_nil

theorem clearsThreshold_of_le {x : ℚ} (h : SIMILARITY_THRESHOLD ≤ x) :
    clearsThreshold x = true :=
  decide_eq_true h

theorem clearsThreshold_of_lt {x : ℚ} (h : x < SIMILARITY_THRESHOLD) :
    clearsThreshold x = false :=
  decide_eq_false (not_le.mpr h)

/-! ## Claim theorems -/

/-- C2: KeyBuilder.build is deterministic and order-independent — for all
GenerationRequests whose scope, count, type set, Bloom-level set and
distribution are equal up to the ordering of the set-valued fields, build
produces byte-equal signatures and equal hashes. -/
theorem c2_keyBuilder_deterministic (r1 r2 : GenerationRequest)
    (hscope : r1.scope = r2.scope) (hcount : r1.count = r2.count)
    (htypes : r1.types.Perm r2.types) (hbloom : r1.bloom.Perm r2.bloom)
    (hE : r1.distE = r2.distE) (hM : r1.distM = r2.distM)
    (hH : r1.distH = r2.distH) :
    KeyBuilder.build r1 = KeyBuilder.build r2 := by
  have hsig : KeyBuilder.buildSignature r1 = KeyBuilder.buildSignature r2 := by
    unfold KeyBuilder.buildSignature
    rw [hscope, hcount, sortStrings_perm_eq htypes, sortStrings_perm_eq hbloom,
      hE, hM, hH]
  unfold KeyBuilder.build KeyBuilder.buildHash
  rw [hsig, hscope]

/-- Witness for C2: the spec section 8 example request and its
Bloom-reordered variant build to the same signature and hash. -/
theorem c2_keyBuilder_deterministic_witness :
    KeyBuilder.build exampleRequest = KeyBuilder.build exampleRequestReordered :=
  c2_keyBuilder_deterministic exampleRequest exampleRequestReordered rfl rfl
    (List.Perm.refl _) (List.Perm.swap "Remember" "Apply" []) rfl rfl rfl

/-- C3: the similarity-acceptance threshold is inclusive at 0.90 — a
candidate is an accepted similar match iff its score is at least 0.90,
every selected candidate cleared the threshold, a candidate scored exactly
0.90 is accepted and one scored 0.899 is rejected. -/
theorem c3_threshold_inclusive :
    (∀ (f : String → String → ℚ) (sig : String) (cands : List ArtifactEntry)
        (e : ArtifactEntry),
      e ∈ acceptedCandidates f sig cands
        ↔ e ∈ cands ∧ SIMILARITY_THRESHOLD ≤ f sig e.signature)
    ∧ (∀ (f : String → String → ℚ) (sig : String) (cands : List ArtifactEntry)
        (c : ArtifactEntry), selectSimilar f sig cands = some c
          → SIMILARITY_THRESHOLD ≤ f sig c.signature)
    ∧ selectSimilar (fun _ _ => (9 : ℚ) / 10) "" [sampleEntry] = some sampleEntry
    ∧ selectSimilar (fun _ _ => (899 : ℚ) / 1000) "" [sampleEntry] = none := by
  refine ⟨fun f sig cands e => mem_acceptedCandidates, ?_, ?_, ?_⟩
  · intro f sig cands c h
    exact (mem_acceptedCandidates.mp (selectSimilar_mem_accepted h)).2
  · exact selectSimilar_singleton_pos _ _ _
      (clearsThreshold_of_le (by norm_num [SIMILARITY_THRESHOLD]))
  · exact selectSimilar_singleton_neg _ _ _
      (clearsThreshold_of_lt (by norm_num [SIMILARITY_THRESHOLD]))

/-- Witness for C3: the candidate selected at the 0.90 boundary indeed
cleared the threshold. -/
theorem c3_threshold_inclusive_witness :
    SIMILARITY_THRESHOLD ≤ (fun _ _ => (9 : ℚ) / 10) "" sampleEntry.signature :=
  c3_threshold_inclusive.2.1 (fun _ _ => (9 : ℚ) / 10) "" [sampleEntry]
    sampleEntry c3_threshold_inclusive.2.2.1

/-- C4: scope isolation — fetch returns only entries of the requested
scope, an exact match in a well-formed store is always of the request's
scope, and a similarity match chosen from fetched candidates is always of
the requested scope, regardless of its signature. -/
theorem c4_scope_isolation :
    (∀ (store : ArtifactStore) (shortlist : Option (List ArtifactEntry))
        (scope : String) (limit : Nat) (e : ArtifactEntry),
      e ∈ fetch store shortlist scope limit → e.scope = scope)
    ∧ (∀ (store : ArtifactStore) (req : GenerationRequest) (e : ArtifactEntry),
        (∀ x ∈ store, x.hash.scopePart = x.scope)
          → getByHash store (KeyBuilder.buildHash req) = some e
          → e.scope = req.scope)
    ∧ (∀ (f : String → String → ℚ) (sig : String) (store : ArtifactStore)
        (shortlist : Option (List ArtifactEntry)) (scope : String)
        (limit : Nat) (e : ArtifactEntry),
        selectSimilar f sig (fetch store shortlist scope limit) = some e
          → e.scope = scope) := by
  refine ⟨?_, ?_, ?_⟩
  · intro store shortlist scope limit e he
    exact fetch_scope he
  · intro store req e hwf hf
    have hsc := hwf e (getByHash_mem hf)
    rw [getByHash_hash hf] at hsc
    exact hsc.symm
  · intro f sig store shortlist scope limit e hsel
    exact fetch_scope (mem_acceptedCandidates.mp (selectSimilar_mem_accepted hsel)).1

/-- Witness for C4: a same-scope fetch hit and a well-formed-store exact
hit, each at concrete inputs. -/
theorem c4_scope_isolation_witness :
    sampleEntry.scope = "content123"
      ∧ exampleEntry.scope = exampleRequest.scope :=
  ⟨c4_scope_isolation.1 [sampleEntry] none "content123" 10 sampleEntry (by decide),
   c4_scope_isolation.2.1 [exampleEntry] exampleRequest exampleEntry
     (by intro x hx; rw [List.mem_singleton.mp hx]; rfl)
     (getByHash_cons_self rfl)⟩

/-- C5: generation failure is atomic and non-poisoning — on Generator
failure the orchestrator returns with the lock released, the store
unchanged (no artifact persisted), a generation error distinct from
not-found and quota-exceeded, and a later retry against the same store may
generate successfully. -/
theorem c5_generation_failure_atomic (cfg : ResolveConfig)
    (store : ArtifactStore) (req : GenerationRequest) (now newId : Nat)
    (hx : getByHash store (KeyBuilder.buildHash req) = none)
    (hs : selectSimilar cfg.score (KeyBuilder.buildSignature req)
        (fetch store cfg.vectorShortlist req.scope cfg.candidateLimit) = none) :
    (resolveOrGenerate cfg store req (Except.error ()) now newId).result
        = Except.error CacheError.generationFailed
    ∧ (resolveOrGenerate cfg store req (Except.error ()) now newId).store = store
    ∧ (resolveOrGenerate cfg store req (Except.error ()) now newId).lockHeld = false
    ∧ CacheError.generationFailed ≠ CacheError.notFound
    ∧ CacheError.generationFailed ≠ CacheError.quotaExceeded
    ∧ (∀ (p : String) (now2 newId2 : Nat),
        (resolveOrGenerate cfg store req (Except.ok p) now2 newId2).result
          = Except.ok (ResolveOut.mk newId2 p false CacheMatchType.generated 0)) := by
  rw [resolveOrGenerate_missFail cfg store req now newId hx hs]
  refine ⟨rfl, rfl, rfl, by simp, by simp, ?_⟩
  intro p now2 newId2
  rw [resolveOrGenerate_missOk cfg store req p now2 newId2 hx hs]

/-- Witness for C5: a failing generation on an empty store surfaces the
generation error. -/
theorem c5_generation_failure_atomic_witness :
    (resolveOrGenerate sampleConfig [] exampleRequest (Except.error ()) 0 7).result
      = Except.error CacheError.generationFailed :=
  (c5_generation_failure_atomic sampleConfig [] exampleRequest 0 7 rfl rfl).1

/-- C6: exact-match idempotence — the same request issued twice against a
store with no matching entry yields matchType generated first, then
matchType exact with similarity 1, with the identical payload both
times. -/
theorem c6_exact_match_idempotence (cfg : ResolveConfig)
    (store : ArtifactStore) (req : GenerationRequest) (p : String)
    (now newId now2 newId2 : Nat) (gen2 : Except Unit String)
    (hx : getByHash store (KeyBuilder.buildHash req) = none)
    (hs : selectSimilar cfg.score (KeyBuilder.buildSignature req)
        (fetch store cfg.vectorShortlist req.scope cfg.candidateLimit) = none) :
    (resolveOrGenerate cfg store req (Except.ok p) now newId).result
        = Except.ok (ResolveOut.mk newId p false CacheMatchType.generated 0)
    ∧ (resolveOrGenerate cfg
          (resolveOrGenerate cfg store req (Except.ok p) now newId).store
          req gen2 now2 newId2).result
        = Except.ok (ResolveOut.mk newId p true CacheMatchType.exact 1) := by
  rw [resolveOrGenerate_missOk cfg store req p now newId hx hs]
  refine ⟨rfl, ?_⟩
  dsimp only
  rw [resolveOrGenerate_exact cfg _ req gen2 now2 newId2 _ (getByHash_cons_self rfl)]

/-- Witness for C6: the generated-then-exact pair at concrete inputs. -/
theorem c6_exact_match_idempotence_witness :
    (resolveOrGenerate sampleConfig [] exampleRequest (Except.ok "fresh") 0 7).result
      = Except.ok (ResolveOut.mk 7 "fresh" false CacheMatchType.generated 0)
    ∧ (resolveOrGenerate sampleConfig
        (resolveOrGenerate sampleConfig [] exampleRequest (Except.ok "fresh") 0 7).store
        exampleRequest (Except.ok "other") 1 8).result
      = Except.ok (ResolveOut.mk 7 "fresh" true CacheMatchType.exact 1) :=
  c6_exact_match_idempotence sampleConfig [] exampleRequest "fresh" 0 7 1 8
    (Except.ok "other") rfl rfl

/-- C7: tie-break ordering — the selected similar match cleared the
threshold, belongs to the candidates, and dominates every other candidate
that clears the threshold: no higher score exists, and at equal score no
more recent createdAt exists. -/
theorem c7_tie_break (f : String → String → ℚ) (sig : String)
    (cands : List ArtifactEntry) (c : ArtifactEntry)
    (h : selectSimilar f sig cands = some c) :
    c ∈ cands
    ∧ SIMILARITY_THRESHOLD ≤ f sig c.signature
    ∧ ∀ d ∈ cands, SIMILARITY_THRESHOLD ≤ f sig d.signature
        → f sig d.signature ≤ f sig c.signature
          ∧ (f sig c.signature ≤ f sig d.signature → d.createdAt ≤ c.createdAt) := by
  have hmem := mem_acceptedCandidates.mp (selectSimilar_mem_accepted h)
  refine ⟨hmem.1, hmem.2, ?_⟩
  intro d hd hdth
  exact pickBest_dominates h d (mem_acceptedCandidates.mpr ⟨hd, hdth⟩)

/-- Witness for C7: the selected candidate of a one-element list is that
element. -/
theorem c7_tie_break_witness : sampleEntry ∈ [sampleEntry] :=
  (c7_tie_break (fun _ _ => (19 : ℚ) / 20) "" [sampleEntry] sampleEntry
    (selectSimilar_singleton_pos _ _ _
      (clearsThreshold_of_le (by norm_num [SIMILARITY_THRESHOLD])))).1

/-- C8: frame condition — after any resolveOrGenerate run, every
previously persisted entry is still in the store with all fields
unchanged except a possibly incremented usageCount; no entry is
deleted. -/
theorem c8_frame_condition (cfg : ResolveConfig) (store : ArtifactStore)
    (req : GenerationRequest) (gen : Except Unit String) (now newId : Nat) :
    ∀ e ∈ store, ∃ e2 ∈ (resolveOrGenerate cfg store req gen now newId).store,
      preservesEntry e e2 := by
  intro e he
  cases hx : getByHash store (KeyBuilder.buildHash req) with
  | some b =>
    rw [resolveOrGenerate_exact cfg store req gen now newId b hx]
    exact incrementUsage_frame store b.id e he
  | none =>
    cases hs : selectSimilar cfg.score (KeyBuilder.buildSignature req)
        (fetch store cfg.vectorShortlist req.scope cfg.candidateLimit) with
    | some b =>
      rw [resolveOrGenerate_similar cfg store req gen now newId b hx hs]
      exact incrementUsage_frame store b.id e he
    | none =>
      cases gen with
      | error u =>
        cases u
        rw [resolveOrGenerate_missFail cfg store req now newId hx hs]
        exact ⟨e, he, rfl, rfl, rfl, rfl, rfl, rfl, rfl, Or.inl rfl⟩
      | ok p =>
        rw [resolveOrGenerate_missOk cfg store req p now newId hx hs]
        exact ⟨e, List.mem_cons_of_mem _ he, rfl, rfl, rfl, rfl, rfl, rfl, rfl,
          Or.inl rfl⟩

/-- Witness for C8: a concrete store entry survives a generating run. -/
theorem c8_frame_condition_witness :
    ∃ e2 ∈ (resolveOrGenerate sampleConfig [sampleEntry] exampleRequest
        (Except.ok "fresh") 0 7).store, preservesEntry sampleEntry e2 :=
  c8_frame_condition sampleConfig [sampleEntry] exampleRequest
    (Except.ok "fresh") 0 7 sampleEntry (List.mem_singleton_self _)

/-- C9: the QuestionsPage onGenerate handler, for a non-empty contentId,
sends a request whose questionTypes is exactly the one-element list of the
selected type and whose questionCount is the count state, with bloomLevels
and difficultyDistribution unset. -/
theorem c9_onGenerate_request (contentId : String) (count : Nat)
    (qtype : String) (h : contentId ≠ "") :
    Client.onGenerateRequest contentId count qtype
      = some (Client.QuestionsRequest.mk contentId (some count) (some [qtype])
          none none) := by
  unfold Client.onGenerateRequest
  rw [if_neg h]

/-- Witness for C9: a concrete non-empty contentId. -/
theorem c9_onGenerate_request_witness :
    Client.onGenerateRequest "abc123" 5 "Multiple Choice"
      = some (Client.QuestionsRequest.mk "abc123" (some 5)
          (some ["Multiple Choice"]) none none) :=
  c9_onGenerate_request "abc123" 5 "Multiple Choice" (by decide)

/-- C10: hasPII is true iff detectPII is non-empty, detectPII is
duplicate-free for every primitive outcome and every text, and both treat
an undefined text and the empty string as containing no PII. -/
theorem c10_pii_detect (prim : Client.PiiPrimitives) (text : Option String) :
    (Client.hasPII prim text = true ↔ Client.detectPII prim text ≠ [])
    ∧ (Client.detectPII prim text).Nodup
    ∧ Client.detectPII prim none = []
    ∧ Client.detectPII prim (some "") = []
    ∧ Client.hasPII prim none = false
    ∧ Client.hasPII prim (some "") = false := by
  have hempty : Client.detectPII prim (some "") = [] := by
    simp [Client.detectPII]
  refine ⟨?_, ?_, rfl, hempty, rfl, ?_⟩
  · unfold Client.hasPII
    rw [decide_eq_true_eq]
    constructor
    · intro h hnil
      rw [hnil] at h
      simp at h
    · intro h
      exact List.length_pos.mpr h
  · cases text with
    | none => exact List.nodup_nil
    | some t =>
      simp only [Client.detectPII]
      by_cases ht : t = ""
      · rw [if_pos ht]; exact List.nodup_nil
      · rw [if_neg ht]; exact jsSetDedup_nodup _
  · simp [Client.hasPII, hempty]

/-- C1 counterexample: under the spec's own state machine there is a
schedule of two same-hash requests, starting with no cache entry, on which
both requests complete but the Generator is invoked twice — request 1
passes CHECK_EXACT and CHECK_SIMILAR before the winner persists, then
finds the lock already released and acquires it, entering GENERATE a
second time.  This refutes "the Generator is invoked exactly once". -/
theorem c1_single_flight_counterexample :
    (∀ i : Fin 2,
      ((flightRun "a" (flightInit 2) [1, 1, 0, 0, 0, 0, 1, 1]).pc i).isDone = true)
    ∧ (flightRun "a" (flightInit 2) [1, 1, 0, 0, 0, 0, 1, 1]).calls = 2 := by
  constructor
  · decide
  · decide

/-- C1 (amended): for every cache hash, at most one external generation
call is in flight at any time — under every schedule of the N concurrent
same-hash requests, no two requests are simultaneously generating, every
completed request carries the correct payload, and once any request has
completed the Generator has been invoked at least once (the exactly-once
count of the original claim fails, see the counterexample). -/
theorem c1_single_flight_amended (p : String) (n : Nat) (sched : List (Fin n)) :
    (∀ i j, (flightRun p (flightInit n) sched).pc i = ReqPC.generating
        → (flightRun p (flightInit n) sched).pc j = ReqPC.generating → i = j)
    ∧ (∀ i q, (flightRun p (flightInit n) sched).pc i = ReqPC.doneReuse q
          ∨ (flightRun p (flightInit n) sched).pc i = ReqPC.doneGenerated q
        → q = p)
    ∧ (∀ i, ((flightRun p (flightInit n) sched).pc i).isDone = true
        → 1 ≤ (flightRun p (flightInit n) sched).calls) := by
  obtain ⟨h1, h2, h3, h4, h5, h6, h7⟩ :=
    flightInv_run p sched (flightInit n) (flightInv_init p n)
  refine ⟨?_, ?_, ?_⟩
  · intro i j hi hj
    have hij := h1 i hi
    rw [h1 j hj] at hij
    injection hij with hv
    exact hv.symm
  · intro i q hq
    rcases hq with hq | hq
    · exact h3 i q hq
    · exact h4 i q hq
  · intro i hi
    exact h6 (h5 i hi)

/-- Witness for C1 (amended): concrete runs — mutual exclusion applied to
the sole generating request of a run, payload correctness applied to its
completion, and the at-least-one-call bound applied to the same run. -/
theorem c1_single_flight_amended_witness :
    ((0 : Fin 2) = 0)
    ∧ ("a" = "a")
    ∧ 1 ≤ (flightRun "a" (flightInit 2) [0, 0, 0, 0]).calls :=
  ⟨(c1_single_flight_amended "a" 2 [0, 0, 0]).1 0 0 (by decide) (by decide),
   (c1_single_flight_amended "a" 2 [0, 0, 0, 0]).2.1 0 "a" (Or.inr (by decide)),
   (c1_single_flight_amended "a" 2 [0, 0, 0, 0]).2.2 0 (by decide)⟩

end TutorAI
